import Mathlib

/-!
Shallow embedding of ScrapeServ (src/scraper/app.py) in Lean 4, with
theorems checking the natural-language specification against the code.

External capabilities (DNS resolution via socket.getaddrinfo, IP parsing
and classification via the ipaddress module, image decoding via PIL,
MIME-extension lookup via mimetypes, temp-file naming via tempfile) are
modelled as explicit environment parameters; everything else is a direct
translation of the Python source.
-/

namespace ScrapeServ

/-- Classification flags returned by the ipaddress library for a parsed
IP address (the attributes the code reads: is_loopback, is_private,
is_reserved, is_link_local, is_multicast). -/
structure IpFlags where
  loopback : Bool
  privateAddr : Bool
  reserved : Bool
  linkLocal : Bool
  multicast : Bool
deriving DecidableEq, Repr

/-- The network environment: the external capabilities used by
url_is_safe.  getaddrinfo returns none on socket.gaierror, otherwise the
list of resolved address strings.  ip_classify returns none when
ipaddress.ip_address raises ValueError, otherwise the flags. -/
structure NetEnv where
  getaddrinfo : String → Option (List String)
  ip_classify : String → Option IpFlags

/-- Translation of is_private_ip (app.py lines 36-51): parse the address
string; on ValueError treat as unsafe (True); otherwise report whether
it is loopback, private, reserved, link-local, or multicast. -/
def is_private_ip (env : NetEnv) (ip_str : String) : Bool :=
  match env.ip_classify ip_str with
  | none => true
  | some f => f.loopback || f.privateAddr || f.reserved || f.linkLocal || f.multicast

/-- Python str.lower() restricted to the characters that occur in URL
schemes: character-wise ASCII lowering. -/
def pyLower (s : String) : String := String.mk (s.data.map Char.toLower)

/-- Python s.split(sep)[0]: the prefix of s before the first occurrence
of the separator character (the whole string when absent). -/
def pySplitHead (sep : Char) (s : String) : String :=
  String.mk (s.data.takeWhile (fun c => c ≠ sep))

/-- Python str.strip(): remove whitespace from both ends. -/
def pyStrip (s : String) : String :=
  String.mk (((s.data.dropWhile Char.isWhitespace).reverse.dropWhile
    Char.isWhitespace).reverse)

/-- A URL after urlparse: the scheme and network-location components the
code reads. -/
structure Url where
  scheme : String
  netloc : String
deriving DecidableEq, Repr

/-- Default allowed schemes (app.py lines 55-57). -/
def default_allowed_schemes : List String := ["http", "https", "file"]

/-- Translation of url_is_safe (app.py lines 54-90), instrumented to also
return the list of hosts on which getaddrinfo was actually invoked (used
to reason about when DNS happens).  Mirrors the code: lowercase the
scheme; a file scheme is safe unconditionally; other schemes must be in
the allow-list; the host (netloc without the port) must resolve; every
resolved address must pass is_private_ip. -/
def url_is_safe_traced (env : NetEnv) (u : Url) (allowed_schemes : Option (List String)) :
    Bool × List String :=
  let allowed := allowed_schemes.getD default_allowed_schemes
  let scheme := pyLower u.scheme
  if scheme = "file" then
    (true, [])
  else
    let netloc := pySplitHead ':' u.netloc
    if ¬ (scheme ∈ allowed) then
      (false, [])
    else
      match env.getaddrinfo netloc with
      | none => (false, [netloc])
      | some addrs =>
        (addrs.all (fun ip_str => ¬ is_private_ip env ip_str), [netloc])

/-- url_is_safe: the Boolean verdict of the traced version. -/
def url_is_safe (env : NetEnv) (u : Url) (allowed_schemes : Option (List String) := none) :
    Bool :=
  (url_is_safe_traced env u allowed_schemes).1

end ScrapeServ

namespace ScrapeServ

/-- C1 sanity check on a concrete environment: loopback address blocks. -/
def env1 : NetEnv :=
  { getaddrinfo := fun h => if h = "example.com" then some ["93.184.216.34"] else none
    ip_classify := fun s =>
      if s = "93.184.216.34" then some ⟨false, false, false, false, false⟩
      else if s = "127.0.0.1" then some ⟨true, false, false, false, false⟩
      else none }

example : url_is_safe env1 ⟨"http", "example.com"⟩ = true := by decide
example : url_is_safe env1 ⟨"http", "nohost.invalid"⟩ = false := by decide
example : url_is_safe env1 ⟨"FILE", "whatever"⟩ = true := by decide
example : url_is_safe env1 ⟨"ftp", "example.com"⟩ = false := by decide

/-- Bounds imported from worker.py.  worker.py is not part of the visible
source; the spec gives no concrete values either, so the bounds are kept
abstract and the validation logic (which is in app.py) is proved for
every choice of them. -/
structure Bounds where
  MAX_WAIT : Int
  MIN_BROWSER_DIM : Int × Int
  MAX_BROWSER_DIM : Int × Int
  MAX_SCREENSHOTS : Int

/-- A POST /scrape request body plus the Accept header.  url = none
models a missing or empty (falsy) url field; accept = none models an
omitted Accept header. -/
structure ScrapeReq where
  url : Option Url
  wait : Int
  max_screenshots : Int
  browser_dim : Int × Int
  accept : Option String
deriving DecidableEq, Repr

/-- Observable effects of the handler, in execution order: each
validation check that ran, each DNS resolution performed, and the
dispatch to the worker pool. -/
inductive Ev where
  | checkUrlPresent
  | dnsResolve (host : String)
  | checkWait
  | checkDim
  | checkScreens
  | checkAccept
  | dispatch
deriving DecidableEq, Repr

/-- The handler outcome up to worker dispatch: an error response with an
HTTP status code, or a dispatch to the worker with the negotiated image
format. -/
inductive Outcome where
  | err (code : Nat)
  | dispatched (image_format : String)
deriving DecidableEq, Repr

/-- The accepted_formats dict (app.py lines 192-198). -/
def accepted_formats : List (String × String) :=
  [("image/webp", "webp"), ("image/png", "png"), ("image/jpeg", "jpeg"),
   ("image/*", "jpeg"), ("*/*", "jpeg")]

/-- Translation of the scrape handler from the url check through worker
dispatch (app.py lines 163-211), as a trace of effects plus an outcome.
The order mirrors the code: url presence, then url_is_safe (which
resolves DNS), then the wait bound, then both browser_dim axes, then
max_screenshots, then the Accept header, then dispatch. -/
def scrape (env : NetEnv) (b : Bounds) (req : ScrapeReq) : List Ev × Outcome :=
  match req.url with
  | none => ([.checkUrlPresent], .err 400)
  | some u =>
    let st := url_is_safe_traced env u none
    let evs := Ev.checkUrlPresent :: st.2.map Ev.dnsResolve
    if st.1 = false then (evs, .err 400)
    else
      let evs := evs ++ [Ev.checkWait]
      if req.wait < 0 ∨ req.wait > b.MAX_WAIT then (evs, .err 400)
      else
        let evs := evs ++ [Ev.checkDim]
        if req.browser_dim.1 > b.MAX_BROWSER_DIM.1 ∨
            req.browser_dim.1 < b.MIN_BROWSER_DIM.1 then (evs, .err 400)
        else if req.browser_dim.2 > b.MAX_BROWSER_DIM.2 ∨
            req.browser_dim.2 < b.MIN_BROWSER_DIM.2 then (evs, .err 400)
        else
          let evs := evs ++ [Ev.checkScreens]
          if req.max_screenshots > b.MAX_SCREENSHOTS then (evs, .err 400)
          else
            let evs := evs ++ [Ev.checkAccept]
            match accepted_formats.lookup (req.accept.getD "image/jpeg") with
            | none => (evs, .err 406)
            | some fmt => (evs ++ [Ev.dispatch], .dispatched fmt)

/-- C1: For every URL whose scheme is http or https, url_is_safe returns
False when host resolution fails; it returns False when any resolved
address is classified loopback/private/reserved/link-local/multicast or
fails to parse as an IP; and it returns True iff every resolved address
passes is_private_ip. -/
theorem C1_url_safety (env : NetEnv) (u : Url)
    (h : pyLower u.scheme = "http" ∨ pyLower u.scheme = "https") :
    (env.getaddrinfo (pySplitHead ':' u.netloc) = none →
      url_is_safe env u = false) ∧
    (∀ addrs, env.getaddrinfo (pySplitHead ':' u.netloc) = some addrs →
      ((∃ a ∈ addrs, is_private_ip env a = true) → url_is_safe env u = false) ∧
      (url_is_safe env u = true ↔ ∀ a ∈ addrs, is_private_ip env a = false)) ∧
    (∀ a, env.ip_classify a = none → is_private_ip env a = true) := by
  have hfile : ¬ pyLower u.scheme = "file" := by
    rcases h with h | h <;> simp [h]
  have hmem : pyLower u.scheme ∈ default_allowed_schemes := by
    rcases h with h | h <;> simp [h, default_allowed_schemes]
  refine ⟨?_, ?_, ?_⟩
  · intro hres
    simp [url_is_safe, url_is_safe_traced, hfile, hmem, hres]
  · intro addrs hres
    have key : url_is_safe env u =
        addrs.all (fun ip_str => !is_private_ip env ip_str) := by
      simp [url_is_safe, url_is_safe_traced, hfile, hmem, hres]
    constructor
    · rintro ⟨a, ha, hpriv⟩
      rw [key, List.all_eq_false]
      exact ⟨a, ha, by simp [hpriv]⟩
    · rw [key, List.all_eq_true]
      simp
  · intro a ha
    simp [is_private_ip, ha]

/-- C1 witness: the theorem applied to a concrete environment and URL. -/
theorem C1_url_safety_witness :
    (pyLower "http" = "http" ∨ pyLower "http" = "https") ∧
    ((env1.getaddrinfo (pySplitHead ':' "example.com") = none →
      url_is_safe env1 ⟨"http", "example.com"⟩ = false) ∧
    (∀ addrs, env1.getaddrinfo (pySplitHead ':' "example.com") = some addrs →
      ((∃ a ∈ addrs, is_private_ip env1 a = true) →
        url_is_safe env1 ⟨"http", "example.com"⟩ = false) ∧
      (url_is_safe env1 ⟨"http", "example.com"⟩ = true ↔
        ∀ a ∈ addrs, is_private_ip env1 a = false)) ∧
    (∀ a, env1.ip_classify a = none → is_private_ip env1 a = true)) :=
  ⟨Or.inl (by decide),
   C1_url_safety env1 ⟨"http", "example.com"⟩ (Or.inl (by decide))⟩

/-- C4: For every URL whose scheme lowercases to "file", url_is_safe
returns True, for every network environment and every allow-list
argument — independent of host, resolvability, or anything else. -/
theorem C4_file_scheme_always_safe (env : NetEnv) (u : Url)
    (allowed : Option (List String)) (h : pyLower u.scheme = "file") :
    url_is_safe env u allowed = true := by
  simp [url_is_safe, url_is_safe_traced, h]

/-- C4 witness: a file URL pointing at a loopback host in a concrete
environment is still judged safe. -/
theorem C4_file_scheme_always_safe_witness :
    pyLower "FILE" = "file" ∧
    url_is_safe env1 ⟨"FILE", "127.0.0.1"⟩ none = true :=
  ⟨by decide, C4_file_scheme_always_safe env1 ⟨"FILE", "127.0.0.1"⟩ none (by decide)⟩

/-- A concrete, resolvable, public-address URL (under env1). -/
def safeUrl : Option Url := some ⟨"http", "example.com"⟩

/-- A concrete Accept header value mapping to jpeg. -/
def jpegAccept : Option String := some "image/jpeg"

/-- Concrete sample bounds (the real values live in worker.py, outside
the visible source; the theorems hold for all bounds, these are only
used to instantiate witnesses and counterexamples). -/
def cBounds : Bounds :=
  { MAX_WAIT := 15
    MIN_BROWSER_DIM := (100, 100)
    MAX_BROWSER_DIM := (2000, 2000)
    MAX_SCREENSHOTS := 10 }

example :
    scrape env1 cBounds ⟨safeUrl, -1, 0, (500, 500), jpegAccept⟩ =
      ([Ev.checkUrlPresent, Ev.dnsResolve "example.com", Ev.checkWait],
        Outcome.err 400) := by decide

example :
    scrape env1 cBounds ⟨safeUrl, 0, 0, (500, 500), jpegAccept⟩ =
      ([Ev.checkUrlPresent, Ev.dnsResolve "example.com", Ev.checkWait,
        Ev.checkDim, Ev.checkScreens, Ev.checkAccept, Ev.dispatch],
        Outcome.dispatched "jpeg") := by decide

/-- Outcome of the handler, for the concrete safe URL and jpeg Accept
header, as a function of the numeric fields: exactly the chain of bound
checks from app.py lines 174-188. -/
theorem scrape_jpeg_outcome (b : Bounds) (w n x y : Int) :
    (scrape env1 b ⟨safeUrl, w, n, (x, y), jpegAccept⟩).2 =
      (if w < 0 ∨ w > b.MAX_WAIT then Outcome.err 400
      else if x > b.MAX_BROWSER_DIM.1 ∨ x < b.MIN_BROWSER_DIM.1 then Outcome.err 400
      else if y > b.MAX_BROWSER_DIM.2 ∨ y < b.MIN_BROWSER_DIM.2 then Outcome.err 400
      else if n > b.MAX_SCREENSHOTS then Outcome.err 400
      else Outcome.dispatched "jpeg") := by
  have hsafe : url_is_safe_traced env1 ⟨"http", "example.com"⟩ none =
      (true, ["example.com"]) := by decide
  have hl : accepted_formats.lookup "image/jpeg" = some "jpeg" := by decide
  unfold scrape safeUrl
  simp only [hsafe, jpegAccept, Option.getD_some, hl]
  split_ifs <;> first | rfl | assumption

/-- C6: the validation bounds are inclusive at both ends.  With a safe
URL and a jpeg Accept header: wait = -1 and wait = MAX_WAIT + 1 give 400
while wait = 0 and wait = MAX_WAIT pass through to dispatch; a
browser_dim axis one unit outside its range gives 400 while values at
the exact bounds pass; max_screenshots = MAX_SCREENSHOTS + 1 gives 400
while max_screenshots = MAX_SCREENSHOTS passes.  Holds for every choice
of (sane) bounds. -/
theorem C6_bounds_inclusive (b : Bounds)
    (hw : 0 ≤ b.MAX_WAIT)
    (hx : b.MIN_BROWSER_DIM.1 ≤ b.MAX_BROWSER_DIM.1)
    (hy : b.MIN_BROWSER_DIM.2 ≤ b.MAX_BROWSER_DIM.2)
    (hs : 0 ≤ b.MAX_SCREENSHOTS) :
    ((scrape env1 b ⟨safeUrl, -1, 0,
        (b.MIN_BROWSER_DIM.1, b.MIN_BROWSER_DIM.2), jpegAccept⟩).2 =
      Outcome.err 400) ∧
    ((scrape env1 b ⟨safeUrl, b.MAX_WAIT + 1, 0,
        (b.MIN_BROWSER_DIM.1, b.MIN_BROWSER_DIM.2), jpegAccept⟩).2 =
      Outcome.err 400) ∧
    ((scrape env1 b ⟨safeUrl, 0, 0,
        (b.MIN_BROWSER_DIM.1, b.MIN_BROWSER_DIM.2), jpegAccept⟩).2 =
      Outcome.dispatched "jpeg") ∧
    ((scrape env1 b ⟨safeUrl, b.MAX_WAIT, 0,
        (b.MIN_BROWSER_DIM.1, b.MIN_BROWSER_DIM.2), jpegAccept⟩).2 =
      Outcome.dispatched "jpeg") ∧
    ((scrape env1 b ⟨safeUrl, 0, 0,
        (b.MIN_BROWSER_DIM.1 - 1, b.MIN_BROWSER_DIM.2), jpegAccept⟩).2 =
      Outcome.err 400) ∧
    ((scrape env1 b ⟨safeUrl, 0, 0,
        (b.MAX_BROWSER_DIM.1 + 1, b.MIN_BROWSER_DIM.2), jpegAccept⟩).2 =
      Outcome.err 400) ∧
    ((scrape env1 b ⟨safeUrl, 0, 0,
        (b.MIN_BROWSER_DIM.1, b.MIN_BROWSER_DIM.2 - 1), jpegAccept⟩).2 =
      Outcome.err 400) ∧
    ((scrape env1 b ⟨safeUrl, 0, 0,
        (b.MIN_BROWSER_DIM.1, b.MAX_BROWSER_DIM.2 + 1), jpegAccept⟩).2 =
      Outcome.err 400) ∧
    ((scrape env1 b ⟨safeUrl, 0, 0,
        (b.MAX_BROWSER_DIM.1, b.MAX_BROWSER_DIM.2), jpegAccept⟩).2 =
      Outcome.dispatched "jpeg") ∧
    ((scrape env1 b ⟨safeUrl, 0, b.MAX_SCREENSHOTS + 1,
        (b.MIN_BROWSER_DIM.1, b.MIN_BROWSER_DIM.2), jpegAccept⟩).2 =
      Outcome.err 400) ∧
    ((scrape env1 b ⟨safeUrl, 0, b.MAX_SCREENSHOTS,
        (b.MIN_BROWSER_DIM.1, b.MIN_BROWSER_DIM.2), jpegAccept⟩).2 =
      Outcome.dispatched "jpeg") := by
  refine ⟨?_, ?_, ?_, ?_, ?_, ?_, ?_, ?_, ?_, ?_, ?_⟩ <;>
    rw [scrape_jpeg_outcome] <;> split_ifs <;> first | rfl | omega

/-- C6 witness: the theorem instantiated at concrete sample bounds. -/
theorem C6_bounds_inclusive_witness :
    ((scrape env1 cBounds ⟨safeUrl, -1, 0,
        (cBounds.MIN_BROWSER_DIM.1, cBounds.MIN_BROWSER_DIM.2), jpegAccept⟩).2 =
      Outcome.err 400) ∧
    ((scrape env1 cBounds ⟨safeUrl, cBounds.MAX_WAIT + 1, 0,
        (cBounds.MIN_BROWSER_DIM.1, cBounds.MIN_BROWSER_DIM.2), jpegAccept⟩).2 =
      Outcome.err 400) ∧
    ((scrape env1 cBounds ⟨safeUrl, 0, 0,
        (cBounds.MIN_BROWSER_DIM.1, cBounds.MIN_BROWSER_DIM.2), jpegAccept⟩).2 =
      Outcome.dispatched "jpeg") ∧
    ((scrape env1 cBounds ⟨safeUrl, cBounds.MAX_WAIT, 0,
        (cBounds.MIN_BROWSER_DIM.1, cBounds.MIN_BROWSER_DIM.2), jpegAccept⟩).2 =
      Outcome.dispatched "jpeg") ∧
    ((scrape env1 cBounds ⟨safeUrl, 0, 0,
        (cBounds.MIN_BROWSER_DIM.1 - 1, cBounds.MIN_BROWSER_DIM.2), jpegAccept⟩).2 =
      Outcome.err 400) ∧
    ((scrape env1 cBounds ⟨safeUrl, 0, 0,
        (cBounds.MAX_BROWSER_DIM.1 + 1, cBounds.MIN_BROWSER_DIM.2), jpegAccept⟩).2 =
      Outcome.err 400) ∧
    ((scrape env1 cBounds ⟨safeUrl, 0, 0,
        (cBounds.MIN_BROWSER_DIM.1, cBounds.MIN_BROWSER_DIM.2 - 1), jpegAccept⟩).2 =
      Outcome.err 400) ∧
    ((scrape env1 cBounds ⟨safeUrl, 0, 0,
        (cBounds.MIN_BROWSER_DIM.1, cBounds.MAX_BROWSER_DIM.2 + 1), jpegAccept⟩).2 =
      Outcome.err 400) ∧
    ((scrape env1 cBounds ⟨safeUrl, 0, 0,
        (cBounds.MAX_BROWSER_DIM.1, cBounds.MAX_BROWSER_DIM.2), jpegAccept⟩).2 =
      Outcome.dispatched "jpeg") ∧
    ((scrape env1 cBounds ⟨safeUrl, 0, cBounds.MAX_SCREENSHOTS + 1,
        (cBounds.MIN_BROWSER_DIM.1, cBounds.MIN_BROWSER_DIM.2), jpegAccept⟩).2 =
      Outcome.err 400) ∧
    ((scrape env1 cBounds ⟨safeUrl, 0, cBounds.MAX_SCREENSHOTS,
        (cBounds.MIN_BROWSER_DIM.1, cBounds.MIN_BROWSER_DIM.2), jpegAccept⟩).2 =
      Outcome.dispatched "jpeg") :=
  C6_bounds_inclusive cBounds (by decide) (by decide) (by decide) (by decide)

/-- C3 counterexample: a request whose wait bound check fails (wait = -1,
rejected with 400) nevertheless performs DNS resolution, because
url_is_safe runs — and resolves the host — before the numeric bound
checks.  So DNS resolution does happen before all bound checks have
passed, refuting the claim as stated. -/
theorem C3_counterexample :
    (scrape env1 cBounds ⟨safeUrl, -1, 0, (500, 500), jpegAccept⟩).1 =
      [Ev.checkUrlPresent, Ev.dnsResolve "example.com", Ev.checkWait] ∧
    (scrape env1 cBounds ⟨safeUrl, -1, 0, (500, 500), jpegAccept⟩).2 =
      Outcome.err 400 ∧
    Ev.dnsResolve "example.com" ∈
      (scrape env1 cBounds ⟨safeUrl, -1, 0, (500, 500), jpegAccept⟩).1 := by
  decide

/-- C3 amended: worker dispatch happens only after every validation
check (wait, browser_dim, max_screenshots, Accept) has run and passed —
the dispatch event only ever appears at the very end of a trace that
contains all check events; DNS resolution, however, runs as part of the
URL safety check, after the url-presence check and before the numeric
bound checks. -/
theorem C3_dispatch_only_after_validation (env : NetEnv) (b : Bounds)
    (req : ScrapeReq) (h : Ev.dispatch ∈ (scrape env b req).1) :
    ∃ (hosts : List String) (fmt : String),
      (scrape env b req).1 =
        Ev.checkUrlPresent :: hosts.map Ev.dnsResolve ++
          [Ev.checkWait, Ev.checkDim, Ev.checkScreens, Ev.checkAccept,
            Ev.dispatch] ∧
      (scrape env b req).2 = Outcome.dispatched fmt := by
  cases hu : req.url with
  | none =>
    unfold scrape at h
    rw [hu] at h
    simp at h
  | some u =>
    unfold scrape at h ⊢
    rw [hu] at h ⊢
    simp only at h ⊢
    split_ifs at h ⊢ <;> try simp at h
    cases hl : accepted_formats.lookup (req.accept.getD "image/jpeg") with
    | none => rw [hl] at h; simp at h
    | some fmt =>
      refine ⟨(url_is_safe_traced env u none).2, fmt, ?_, ?_⟩ <;> simp [hl]

/-- C3 amended witness: a fully valid request reaches dispatch, with the
trace ending in dispatch after all check events. -/
theorem C3_dispatch_only_after_validation_witness :
    Ev.dispatch ∈
      (scrape env1 cBounds ⟨safeUrl, 0, 0, (500, 500), jpegAccept⟩).1 ∧
    ∃ (hosts : List String) (fmt : String),
      (scrape env1 cBounds ⟨safeUrl, 0, 0, (500, 500), jpegAccept⟩).1 =
        Ev.checkUrlPresent :: hosts.map Ev.dnsResolve ++
          [Ev.checkWait, Ev.checkDim, Ev.checkScreens, Ev.checkAccept,
            Ev.dispatch] ∧
      (scrape env1 cBounds ⟨safeUrl, 0, 0, (500, 500), jpegAccept⟩).2 =
        Outcome.dispatched fmt :=
  ⟨by decide,
   C3_dispatch_only_after_validation env1 cBounds
     ⟨safeUrl, 0, 0, (500, 500), jpegAccept⟩ (by decide)⟩

/-- C10: a request that omits the Accept header never gets a 406 — the
header defaults to image/jpeg — and whenever such a request reaches
dispatch, the negotiated format is jpeg. -/
theorem C10_accept_omitted_defaults_jpeg (env : NetEnv) (b : Bounds)
    (req : ScrapeReq) (h : req.accept = none) :
    (scrape env b req).2 ≠ Outcome.err 406 ∧
    ∀ fmt, (scrape env b req).2 = Outcome.dispatched fmt → fmt = "jpeg" := by
  have hl : accepted_formats.lookup "image/jpeg" = some "jpeg" := by decide
  cases hu : req.url with
  | none =>
    unfold scrape
    rw [hu]
    exact ⟨by simp, by simp⟩
  | some u =>
    unfold scrape
    rw [hu, h]
    simp only [Option.getD_none, hl]
    split_ifs <;> refine ⟨by simp, ?_⟩ <;> intro fmt hfmt <;>
      (simp at hfmt; try first | exact hfmt | exact hfmt.symm)

/-- C10 witness: a concrete request with no Accept header dispatches
with jpeg and does not yield 406. -/
theorem C10_accept_omitted_defaults_jpeg_witness :
    (scrape env1 cBounds ⟨safeUrl, 0, 0, (500, 500), none⟩).2 ≠
      Outcome.err 406 ∧
    ∀ fmt,
      (scrape env1 cBounds ⟨safeUrl, 0, 0, (500, 500), none⟩).2 =
        Outcome.dispatched fmt → fmt = "jpeg" :=
  C10_accept_omitted_defaults_jpeg env1 cBounds
    ⟨safeUrl, 0, 0, (500, 500), none⟩ rfl

/-- The multipart boundary token (app.py line 227): a fixed literal. -/
def boundary : String := "Boundary712sAM12MVaJff23NXJ"

/-- The boundary token used in the response to a given request.  The
code assigns the same literal on every request, so the function ignores
its argument. -/
def responseBoundary (_req : ScrapeReq) : String := boundary

/-- An image as the code observes it through PIL: a width and a height. -/
structure Img where
  width : Nat
  height : Nat
deriving DecidableEq, Repr

/-- Image capabilities: PIL Image.open (read dimensions from a file) and
tempfile.mkstemp (allocate a fresh path with the given suffix). -/
structure ImgEnv where
  openImage : String → Img
  mkstemp : String → String

/-- Result of stack_images_vertically: no artifact, the input artifact
itself (no new file), or a newly written file with its canvas size and
the (x, y) paste positions in paste order. -/
inductive StackResult where
  | noArtifact
  | reused (file : String)
  | newFile (path : String) (canvasWidth canvasHeight : Nat)
      (pastes : List (Nat × Nat))
deriving DecidableEq, Repr

/-- Translation of stack_images_vertically (app.py lines 102-146).
Empty list: None.  Single file: that file, directly.  Otherwise: open
all images, canvas width = max of the widths (Python max over a
nonempty list, embedded as a fold from 0), canvas height = sum of
heights, paste each image at (0, y_offset) with y_offset accumulating
the heights in order, write to a fresh temp file. -/
def stack_images_vertically (env : ImgEnv) (image_files : List String)
    (output_format : String) : StackResult :=
  match image_files with
  | [] => .noArtifact
  | [f] => .reused f
  | _ =>
    let images := image_files.map env.openImage
    let max_width := (images.map Img.width).foldl max 0
    let total_height := (images.map Img.height).foldl (· + ·) 0
    let pastes :=
      (images.foldl
        (fun st img => (st.1 ++ [(0, st.2)], st.2 + img.height))
        (([] : List (Nat × Nat)), 0)).1
    let output_path := env.mkstemp ("." ++ output_format)
    .newFile output_path max_width total_height pastes

/-- Translation of get_ext_from_content_type (app.py lines 94-99), with
mimetypes.guess_all_extensions as a capability: take the media type
before any ';' parameter, strip whitespace, and return the first known
extension (with its dot) or the empty string. -/
def get_ext_from_content_type (guess : String → List String)
    (content_type : String) : String :=
  let mime_type := pyStrip (pySplitHead ';' content_type)
  match guess mime_type with
  | [] => ""
  | e :: _ => e

/-- One chunk yielded by the stream generator.  A partHeader chunk is
the rendered boundary line plus a Content-Disposition header with the
given disposition, name and filename (and a Content-Type when given);
bytes is an inline payload (the JSON dump); fileChunk stands for the
chunked contents of a file; closingBoundary is the final terminator
line. -/
inductive Entry where
  | partHeader (bd : String) (contentType : Option String)
      (disposition name filename : String)
  | bytes (data : String)
  | fileChunk (path : String)
  | closingBoundary (bd : String)
deriving DecidableEq, Repr

/-- The inputs the stream generator closes over (app.py lines 219-238):
the content artifact, the optional stacked screenshot, the raw
screenshot files, the serialized info JSON, the content-type header of
the scraped page, the negotiated image format, and the mimetypes
capability. -/
structure StreamCtx where
  contentFile : String
  stackedScreenshot : Option String
  screenshotFiles : List String
  infoJson : String
  contentType : String
  image_format : String
  guess : String → List String

/-- The cleanup_files list built before streaming (app.py lines
229-235): the content artifact (present on the success path) and the
stacked screenshot when there is one; raw screenshots are deliberately
not added. -/
def cleanup_files (c : StreamCtx) : List String :=
  [c.contentFile] ++
    (match c.stackedScreenshot with | none => [] | some ss => [ss])

/-- The sequence of chunks the generator yields on a complete run
(app.py lines 240-277): info.json part, main content part, optional
stacked screenshot part, closing boundary. -/
def streamYields (c : StreamCtx) : List Entry :=
  [ .partHeader boundary (some "application/json") "attachment"
      "info.json" "info.json",
    .bytes c.infoJson,
    .partHeader boundary (some c.contentType) "attachment"
      ("main" ++ get_ext_from_content_type c.guess c.contentType)
      ("main" ++ get_ext_from_content_type c.guess c.contentType),
    .fileChunk c.contentFile ]
  ++ (match c.stackedScreenshot with
      | none => []
      | some ss =>
        [ .partHeader boundary (some ("image/" ++ c.image_format))
            "attachment" ("screenshot." ++ c.image_format)
            ("screenshot." ++ c.image_format),
          .fileChunk ss ])
  ++ [.closingBoundary boundary]

/-- os.unlink on a model filesystem (a finite set of paths): removes the
path, raising FileNotFoundError when it is absent. -/
def os_unlink (fs : List String) (p : String) :
    Except String (List String) :=
  if p ∈ fs then .ok (fs.filter (fun q => q ≠ p))
  else .error "FileNotFoundError"

/-- The guarded deletion idiom used at both cleanup sites (app.py lines
281-282 and 290-291): if os.path.exists(p): os.unlink(p).  Returns the
new filesystem and whether an unlink actually happened. -/
def guardedUnlink (fs : List String) (p : String) : List String × Bool :=
  if p ∈ fs then (fs.filter (fun q => q ≠ p), true) else (fs, false)

/-- A cleanup loop over a list of paths, each deleted with the guarded
idiom; returns the final filesystem and the paths actually unlinked, in
order. -/
def deleteAll (fs : List String) : List String → List String × List String
  | [] => (fs, [])
  | p :: rest =>
    let g := guardedUnlink fs p
    let r := deleteAll g.1 rest
    if g.2 then (r.1, p :: r.2) else (r.1, r.2)

/-- The outcome of one run of the stream generator. -/
structure StreamRun where
  emitted : List Entry
  fs : List String
  raised : Option String
  unlinked : List String
deriving Repr

/-- Run the stream generator (app.py lines 238-293) against a model
filesystem, with an optional injected streaming exception: failAt =
some k raises at the k-th yield, so only the first k chunks are emitted
and the raw-screenshot deletion loop at the end of the try block is
skipped.  The except clause swallows the exception (raised := none in
both cases); the finally clause always deletes cleanup_files. -/
def runStream (c : StreamCtx) (fs0 : List String) (failAt : Option Nat) :
    StreamRun :=
  match failAt with
  | none =>
    let d1 := deleteAll fs0 c.screenshotFiles
    let d2 := deleteAll d1.1 (cleanup_files c)
    { emitted := streamYields c, fs := d2.1, raised := none,
      unlinked := d1.2 ++ d2.2 }
  | some k =>
    let d2 := deleteAll fs0 (cleanup_files c)
    { emitted := (streamYields c).take k, fs := d2.1, raised := none,
      unlinked := d2.2 }

/-- The guarded deletion idiom expressed against the raising os_unlink:
the existence check routes absent files away from os.unlink. -/
def guardedUnlinkE (fs : List String) (p : String) :
    Except String (List String × Bool) :=
  if p ∈ fs then
    match os_unlink fs p with
    | .ok fs' => .ok (fs', true)
    | .error e => .error e
  else .ok (fs, false)

/-- The guarded idiom never raises: it always returns ok, with exactly
the guardedUnlink result. -/
theorem guardedUnlinkE_ok (fs : List String) (p : String) :
    guardedUnlinkE fs p = .ok (guardedUnlink fs p) := by
  by_cases hp : p ∈ fs <;> simp [guardedUnlinkE, guardedUnlink, os_unlink, hp]

/-- Unfolding deleteAll one step. -/
theorem deleteAll_cons (fs : List String) (q : String) (rest : List String) :
    deleteAll fs (q :: rest) =
      if q ∈ fs then
        ((deleteAll (fs.filter fun r => r ≠ q) rest).1,
          q :: (deleteAll (fs.filter fun r => r ≠ q) rest).2)
      else deleteAll fs rest := by
  by_cases hq : q ∈ fs <;> simp [deleteAll, guardedUnlink, hq]

/-- deleteAll never adds files: its final filesystem is a subset of the
initial one. -/
theorem deleteAll_fs_subset (paths : List String) (fs : List String)
    (p : String) (h : p ∈ (deleteAll fs paths).1) : p ∈ fs := by
  induction paths generalizing fs with
  | nil => simpa [deleteAll] using h
  | cons q rest ih =>
    rw [deleteAll_cons] at h
    by_cases hq : q ∈ fs
    · rw [if_pos hq] at h
      exact List.mem_of_mem_filter (ih _ h)
    · rw [if_neg hq] at h
      exact ih _ h

/-- Every path that deleteAll actually unlinks was present initially. -/
theorem deleteAll_log_subset (paths : List String) (fs : List String)
    (p : String) (h : p ∈ (deleteAll fs paths).2) : p ∈ fs := by
  induction paths generalizing fs with
  | nil => simp [deleteAll] at h
  | cons q rest ih =>
    rw [deleteAll_cons] at h
    by_cases hq : q ∈ fs
    · rw [if_pos hq] at h
      rcases List.mem_cons.mp h with rfl | h2
      · exact hq
      · exact List.mem_of_mem_filter (ih _ h2)
    · rw [if_neg hq] at h
      exact ih _ h

/-- A path deleteAll unlinked is gone from its final filesystem. -/
theorem deleteAll_log_not_final (paths : List String) (fs : List String)
    (p : String) (h : p ∈ (deleteAll fs paths).2) :
    p ∉ (deleteAll fs paths).1 := by
  induction paths generalizing fs with
  | nil => simp [deleteAll] at h
  | cons q rest ih =>
    rw [deleteAll_cons] at h ⊢
    by_cases hq : q ∈ fs
    · rw [if_pos hq] at h ⊢
      rcases List.mem_cons.mp h with rfl | h2
      · intro hmem
        have := deleteAll_fs_subset rest _ p hmem
        simp at this
      · exact ih _ h2
    · rw [if_neg hq] at h ⊢
      exact ih _ h

/-- deleteAll removes every path on its work list from the final
filesystem. -/
theorem deleteAll_final_not_mem (paths : List String) (fs : List String)
    (p : String) (h : p ∈ paths) : p ∉ (deleteAll fs paths).1 := by
  induction paths generalizing fs with
  | nil => simp at h
  | cons q rest ih =>
    rw [deleteAll_cons]
    by_cases hq : q ∈ fs
    · rw [if_pos hq]
      rcases List.mem_cons.mp h with rfl | hrest
      · intro hmem
        have := deleteAll_fs_subset rest _ p hmem
        simp at this
      · exact ih _ hrest
    · rw [if_neg hq]
      rcases List.mem_cons.mp h with rfl | hrest
      · intro hmem
        exact hq (deleteAll_fs_subset rest _ p hmem)
      · exact ih _ hrest

/-- deleteAll unlinks any given path at most once. -/
theorem deleteAll_log_count (paths : List String) (fs : List String)
    (p : String) : (deleteAll fs paths).2.count p ≤ 1 := by
  induction paths generalizing fs with
  | nil => simp [deleteAll]
  | cons q rest ih =>
    rw [deleteAll_cons]
    by_cases hq : q ∈ fs
    · rw [if_pos hq]
      by_cases hpq : p = q
      · subst hpq
        have hnot : p ∉ (deleteAll (fs.filter fun r => r ≠ p) rest).2 := by
          intro hmem
          have := deleteAll_log_subset rest _ p hmem
          simp at this
        show List.count p
          (p :: (deleteAll (fs.filter fun r => r ≠ p) rest).2) ≤ 1
        rw [List.count_cons_self, List.count_eq_zero.mpr hnot]
      · show List.count p
          (q :: (deleteAll (fs.filter fun r => r ≠ q) rest).2) ≤ 1
        rw [List.count_cons_of_ne hpq]
        exact ih _
    · rw [if_neg hq]
      exact ih _

/-- The names of the parts emitted by a chunk sequence, in order. -/
def partNames : List Entry → List String
  | [] => []
  | .partHeader _ _ _ n _ :: rest => n :: partNames rest
  | _ :: rest => partNames rest

/-- A stream context with one screenshot, whose stacked-image reference
is the raw screenshot itself (the single-screenshot case of
stack_images_vertically). -/
def cctx1 : StreamCtx :=
  { contentFile := "main.html"
    stackedScreenshot := some "shot.jpeg"
    screenshotFiles := ["shot.jpeg"]
    infoJson := "info"
    contentType := "text/html"
    image_format := "jpeg"
    guess := fun _ => [".html"] }

/-- A stream context with two screenshots and a separate stacked
image. -/
def cctx2 : StreamCtx :=
  { contentFile := "main.html"
    stackedScreenshot := some "stacked.jpeg"
    screenshotFiles := ["shot1.jpeg", "shot2.jpeg"]
    infoJson := "info"
    contentType := "text/html"
    image_format := "jpeg"
    guess := fun _ => [".html"] }

/-- The artifacts of cctx2 present on disk before streaming. -/
def cfs2 : List String :=
  ["main.html", "stacked.jpeg", "shot1.jpeg", "shot2.jpeg"]

example :
    (runStream cctx1 ["main.html", "shot.jpeg"] none).unlinked =
      ["shot.jpeg", "main.html"] := by decide

example : (runStream cctx1 ["main.html", "shot.jpeg"] none).fs = [] := by
  decide

/-- C9: every tracked artifact is unlinked at most once per request —
in every run of the stream, complete or failed, including the
single-screenshot case where the stacked-image reference and the raw
screenshot reference are the same path appearing in both cleanup lists —
and the guarded delete is total (never raises) and is a no-op on an
absent file. -/
theorem C9_delete_at_most_once (c : StreamCtx) (fs0 : List String)
    (failAt : Option Nat) (p : String) :
    (runStream c fs0 failAt).unlinked.count p ≤ 1 ∧
    (∀ fs q, guardedUnlinkE fs q = Except.ok (guardedUnlink fs q)) ∧
    (∀ fs q, q ∉ fs → guardedUnlink fs q = (fs, false)) := by
  refine ⟨?_, fun fs q => guardedUnlinkE_ok fs q,
    fun fs q hq => by simp [guardedUnlink, hq]⟩
  cases failAt with
  | some k =>
    show (deleteAll fs0 (cleanup_files c)).2.count p ≤ 1
    exact deleteAll_log_count _ _ _
  | none =>
    show ((deleteAll fs0 c.screenshotFiles).2 ++
      (deleteAll (deleteAll fs0 c.screenshotFiles).1
        (cleanup_files c)).2).count p ≤ 1
    rw [List.count_append]
    by_cases h1 : p ∈ (deleteAll fs0 c.screenshotFiles).2
    · have h2 : p ∉ (deleteAll (deleteAll fs0 c.screenshotFiles).1
          (cleanup_files c)).2 := fun hmem =>
        deleteAll_log_not_final _ _ _ h1 (deleteAll_log_subset _ _ _ hmem)
      rw [List.count_eq_zero.mpr h2]
      simpa using deleteAll_log_count c.screenshotFiles fs0 p
    · rw [List.count_eq_zero.mpr h1]
      simpa using deleteAll_log_count (cleanup_files c) _ p

/-- C9 witness: the single-screenshot run — the shared path is unlinked
at most once — and the guarded delete of an absent file. -/
theorem C9_delete_at_most_once_witness :
    (runStream cctx1 ["main.html", "shot.jpeg"] none).unlinked.count
      "shot.jpeg" ≤ 1 ∧
    guardedUnlinkE [] "gone.txt" =
      Except.ok (guardedUnlink [] "gone.txt") ∧
    guardedUnlink [] "gone.txt" = ([], false) :=
  ⟨(C9_delete_at_most_once cctx1 ["main.html", "shot.jpeg"] none
      "shot.jpeg").1,
   (C9_delete_at_most_once cctx1 ["main.html", "shot.jpeg"] none
      "shot.jpeg").2.1 [] "gone.txt",
   (C9_delete_at_most_once cctx1 ["main.html", "shot.jpeg"] none
      "shot.jpeg").2.2 [] "gone.txt" (by decide)⟩

/-- C2 counterexample: when the stream raises at the second yield, the
two raw screenshot artifacts are NOT removed — the deletion loop for
them sits at the end of the try block and is skipped by the exception —
even though no exception escapes.  This refutes the claim that cleanup
removes every tracked artifact on a partway failure. -/
theorem C2_counterexample :
    (runStream cctx2 cfs2 (some 2)).raised = none ∧
    "shot1.jpeg" ∈ (runStream cctx2 cfs2 (some 2)).fs ∧
    "shot2.jpeg" ∈ (runStream cctx2 cfs2 (some 2)).fs := by decide

/-- C2 amended: if the stream fails partway through, no exception
escapes to the caller and the finally block still removes the content
artifact and the stacked-image artifact; the raw per-screenshot
artifacts, however, are removed only on a run that completes without a
streaming exception. -/
theorem C2_stream_failure_cleanup (c : StreamCtx) (fs0 : List String)
    (failAt : Option Nat) :
    (runStream c fs0 failAt).raised = none ∧
    c.contentFile ∉ (runStream c fs0 failAt).fs ∧
    (∀ ss, c.stackedScreenshot = some ss →
      ss ∉ (runStream c fs0 failAt).fs) ∧
    (failAt = none →
      ∀ p ∈ c.screenshotFiles, p ∉ (runStream c fs0 failAt).fs) := by
  cases failAt with
  | some k =>
    refine ⟨rfl, ?_, ?_, ?_⟩
    · exact deleteAll_final_not_mem _ _ _ (by simp [cleanup_files])
    · intro ss hss
      exact deleteAll_final_not_mem _ _ _ (by simp [cleanup_files, hss])
    · intro hnone
      simp at hnone
  | none =>
    refine ⟨rfl, ?_, ?_, ?_⟩
    · exact deleteAll_final_not_mem _ _ _ (by simp [cleanup_files])
    · intro ss hss
      exact deleteAll_final_not_mem _ _ _ (by simp [cleanup_files, hss])
    · intro _ p hp hmem
      exact deleteAll_final_not_mem _ _ _ hp
        (deleteAll_fs_subset _ _ _ hmem)

/-- C2 amended witness: the failing run of the concrete context — no
exception escapes and content plus stacked image are still removed. -/
theorem C2_stream_failure_cleanup_witness :
    (runStream cctx2 cfs2 (some 2)).raised = none ∧
    "main.html" ∉ (runStream cctx2 cfs2 (some 2)).fs ∧
    "stacked.jpeg" ∉ (runStream cctx2 cfs2 (some 2)).fs :=
  ⟨(C2_stream_failure_cleanup cctx2 cfs2 (some 2)).1,
   (C2_stream_failure_cleanup cctx2 cfs2 (some 2)).2.1,
   (C2_stream_failure_cleanup cctx2 cfs2 (some 2)).2.2.1 "stacked.jpeg" rfl⟩

/-- C8: the stream emits its parts in the fixed order info.json, main
content, then the stacked screenshot when one exists; the final chunk is
the closing boundary marker; and every part header carries the response
boundary token and an attachment disposition whose filename equals its
name. -/
theorem C8_multipart_order (c : StreamCtx) :
    partNames (streamYields c) =
      ["info.json",
        "main" ++ get_ext_from_content_type c.guess c.contentType] ++
      (match c.stackedScreenshot with
        | none => []
        | some _ => ["screenshot." ++ c.image_format]) ∧
    (streamYields c).getLast? = some (.closingBoundary boundary) ∧
    (∀ e ∈ streamYields c, ∀ bd ct disp n fn,
      e = .partHeader bd ct disp n fn →
        bd = boundary ∧ disp = "attachment" ∧ fn = n) := by
  refine ⟨?_, ?_, ?_⟩
  · cases hss : c.stackedScreenshot <;>
      simp [streamYields, partNames, hss]
  · cases hss : c.stackedScreenshot <;>
      simp [streamYields, hss]
  · intro e he bd ct disp n fn hEq
    subst hEq
    cases hss : c.stackedScreenshot with
    | none =>
      simp [streamYields, hss] at he
      rcases he with ⟨rfl, rfl, rfl, rfl, rfl⟩ | ⟨rfl, rfl, rfl, rfl, rfl⟩ <;>
        exact ⟨rfl, rfl, rfl⟩
    | some ss =>
      simp [streamYields, hss] at he
      rcases he with ⟨rfl, rfl, rfl, rfl, rfl⟩ | ⟨rfl, rfl, rfl, rfl, rfl⟩ |
        ⟨rfl, rfl, rfl, rfl, rfl⟩ <;> exact ⟨rfl, rfl, rfl⟩

/-- C8 witness: the concrete two-screenshot context — part names in
order, the closing boundary last, and the info part header checked
against the theorem. -/
theorem C8_multipart_order_witness :
    partNames (streamYields cctx2) =
      ["info.json",
        "main" ++ get_ext_from_content_type cctx2.guess cctx2.contentType] ++
      ["screenshot." ++ cctx2.image_format] ∧
    (streamYields cctx2).getLast? = some (.closingBoundary boundary) ∧
    (boundary = boundary ∧ "attachment" = "attachment" ∧
      ("info.json" : String) = "info.json") :=
  ⟨(C8_multipart_order cctx2).1, (C8_multipart_order cctx2).2.1,
   (C8_multipart_order cctx2).2.2
     (.partHeader boundary (some "application/json") "attachment"
       "info.json" "info.json") (by decide)
     boundary (some "application/json") "attachment" "info.json"
     "info.json" rfl⟩

/-- C5 counterexample: two distinct requests (hence distinct responses)
whose multipart boundary tokens are equal — the code uses one fixed
literal for every response, so the boundary is not unique per
response. -/
theorem C5_counterexample :
    (⟨safeUrl, 0, 0, (500, 500), jpegAccept⟩ : ScrapeReq) ≠
      ⟨safeUrl, 5, 0, (500, 500), jpegAccept⟩ ∧
    responseBoundary ⟨safeUrl, 0, 0, (500, 500), jpegAccept⟩ =
      responseBoundary ⟨safeUrl, 5, 0, (500, 500), jpegAccept⟩ :=
  ⟨by decide, rfl⟩

/-- C5 amended: the boundary token is the same fixed literal
Boundary712sAM12MVaJff23NXJ for every response, rather than unique per
response. -/
theorem C5_boundary_constant (r1 r2 : ScrapeReq) :
    responseBoundary r1 = "Boundary712sAM12MVaJff23NXJ" ∧
    responseBoundary r1 = responseBoundary r2 :=
  ⟨rfl, rfl⟩

/-- The paste-loop fold: starting from accumulator acc and offset y, the
pastes produced are at x = 0 and y-offsets equal to y plus the running
sum of the heights of the images already placed. -/
theorem pasteFold (imgs : List Img) (acc : List (Nat × Nat)) (y : Nat) :
    (imgs.foldl (fun st img => (st.1 ++ [(0, st.2)], st.2 + img.height))
      (acc, y)).1 =
    acc ++ (List.range imgs.length).map
      (fun i => (0, y + ((imgs.take i).map Img.height).sum)) := by
  induction imgs generalizing acc y with
  | nil => simp
  | cons img rest ih =>
    simp only [List.foldl_cons, List.length_cons]
    rw [ih, List.range_succ_eq_map]
    simp [List.map_map, Function.comp_def, List.take_succ_cons,
      Nat.add_assoc]

/-- Folding (+) from an initial value computes the initial value plus
the sum. -/
theorem foldl_add_eq_sum (l : List Nat) (a : Nat) :
    l.foldl (· + ·) a = a + l.sum := by
  induction l generalizing a with
  | nil => simp
  | cons b rest ih => simp [ih, Nat.add_assoc]

/-- The initial value is below a max-fold. -/
theorem init_le_foldl_max (l : List Nat) (a : Nat) : a ≤ l.foldl max a := by
  induction l generalizing a with
  | nil => simp
  | cons b rest ih => exact le_trans (le_max_left a b) (ih (max a b))

/-- Every element is below a max-fold. -/
theorem le_foldl_max (l : List Nat) (a : Nat) :
    ∀ x ∈ l, x ≤ l.foldl max a := by
  induction l generalizing a with
  | nil => simp
  | cons b rest ih =>
    intro x hx
    rcases List.mem_cons.mp hx with rfl | hx
    · exact le_trans (le_max_right a x) (init_le_foldl_max rest (max a x))
    · exact ih (max a b) x hx

/-- A max-fold is the initial value or one of the elements. -/
theorem foldl_max_mem (l : List Nat) (a : Nat) :
    l.foldl max a = a ∨ l.foldl max a ∈ l := by
  induction l generalizing a with
  | nil => simp
  | cons b rest ih =>
    rcases ih (max a b) with h | h
    · rcases max_choice a b with hm | hm
      · left; rw [List.foldl_cons, h, hm]
      · right; rw [List.foldl_cons, h, hm]; exact List.mem_cons_self b rest
    · right; exact List.mem_cons_of_mem b h

/-- A max-fold from 0 over a nonempty list of naturals is one of the
elements. -/
theorem foldl_max_zero_mem (l : List Nat) (h : l ≠ []) :
    l.foldl max 0 ∈ l := by
  rcases foldl_max_mem l 0 with h0 | hm
  · match l, h with
    | x :: rest, _ =>
      have hx : x ≤ (x :: rest).foldl max 0 :=
        le_foldl_max (x :: rest) 0 x (List.mem_cons_self x rest)
      rw [h0] at hx
      rw [h0, ← Nat.le_zero.mp hx]
      exact List.mem_cons_self x rest
  · exact hm

/-- C7: stack_images_vertically returns no artifact for an empty list;
returns the input artifact itself (no new file) for a singleton; and for
two or more images writes a fresh file whose canvas height is the sum of
the input heights, whose canvas width is an upper bound of and attained
by the input widths (the maximum), and whose pastes sit at x = 0 and
y-offsets equal to the sum of the heights of the images placed before,
in input order. -/
theorem C7_stack_images (env : ImgEnv) (fmt : String) :
    (stack_images_vertically env [] fmt = .noArtifact) ∧
    (∀ f, stack_images_vertically env [f] fmt = .reused f) ∧
    (∀ files, 2 ≤ files.length →
      ∃ W,
        stack_images_vertically env files fmt =
          .newFile (env.mkstemp ("." ++ fmt)) W
            ((files.map fun f => (env.openImage f).height).sum)
            ((List.range files.length).map fun i =>
              (0, ((files.take i).map fun f => (env.openImage f).height).sum)) ∧
        (∀ f ∈ files, (env.openImage f).width ≤ W) ∧
        (∃ f ∈ files, W = (env.openImage f).width)) := by
  refine ⟨rfl, fun f => rfl, ?_⟩
  intro files hlen
  match files, hlen with
  | f1 :: f2 :: rest, _ =>
    refine ⟨(((f1 :: f2 :: rest).map env.openImage).map Img.width).foldl max 0,
      ?_, ?_, ?_⟩
    · show StackResult.newFile _ _ _ _ = _
      rw [pasteFold, foldl_add_eq_sum]
      simp [List.map_map, Function.comp_def]
    · intro f hf
      exact le_foldl_max _ 0 _
        (List.mem_map_of_mem Img.width
          (List.mem_map_of_mem env.openImage hf))
    · have hmem := foldl_max_zero_mem
        (((f1 :: f2 :: rest).map env.openImage).map Img.width) (by simp)
      rcases List.mem_map.mp hmem with ⟨img, himg, hw⟩
      rcases List.mem_map.mp himg with ⟨f, hf, hfimg⟩
      exact ⟨f, hf, by rw [← hw, hfimg]⟩

/-- A concrete image environment realizing the spec example: widths
100, 200, 150 and heights 50, 60, 70. -/
def imgEnvEx : ImgEnv :=
  { openImage := fun f =>
      if f = "a.png" then ⟨100, 50⟩
      else if f = "b.png" then ⟨200, 60⟩
      else ⟨150, 70⟩
    mkstemp := fun suffix => "stacked" ++ suffix }

example :
    stack_images_vertically imgEnvEx ["a.png", "b.png", "c.png"] "jpeg" =
      .newFile "stacked.jpeg" 200 180 [(0, 0), (0, 50), (0, 110)] := by
  decide

/-- C7 witness: the theorem applied to the spec example (widths
[100, 200, 150], heights [50, 60, 70]). -/
theorem C7_stack_images_witness :
    (stack_images_vertically imgEnvEx [] "jpeg" = .noArtifact) ∧
    (stack_images_vertically imgEnvEx ["a.png"] "jpeg" = .reused "a.png") ∧
    (2 ≤ (["a.png", "b.png", "c.png"] : List String).length) ∧
    (∃ W,
      stack_images_vertically imgEnvEx ["a.png", "b.png", "c.png"] "jpeg" =
        .newFile (imgEnvEx.mkstemp (".jpeg")) W
          ((["a.png", "b.png", "c.png"].map fun f =>
            (imgEnvEx.openImage f).height).sum)
          ((List.range (["a.png", "b.png", "c.png"] : List String).length).map
            fun i => (0, ((["a.png", "b.png", "c.png"].take i).map fun f =>
              (imgEnvEx.openImage f).height).sum)) ∧
      (∀ f ∈ (["a.png", "b.png", "c.png"] : List String),
        (imgEnvEx.openImage f).width ≤ W) ∧
      (∃ f ∈ (["a.png", "b.png", "c.png"] : List String),
        W = (imgEnvEx.openImage f).width)) :=
  ⟨(C7_stack_images imgEnvEx "jpeg").1,
   (C7_stack_images imgEnvEx "jpeg").2.1 "a.png",
   by decide,
   (C7_stack_images imgEnvEx "jpeg").2.2 ["a.png", "b.png", "c.png"]
     (by decide)⟩

end ScrapeServ
